import Mathlib

/-!
# Verification of the StreamFlix backend (`backend/server.py`)

Shallow embedding of the FastAPI + MongoDB request handlers in
`src/backend/server.py`.  The document store is modelled as in-memory lists,
one per collection, in natural (insertion) order:

* `find_one(filter)`      → `List.find?` (first document matching the filter);
* `insert_one(doc)`       → append at the end of the list;
* `update_one(filter, $set …)` → rewrite the first matching document;
* `delete_one(filter)`    → `List.eraseP` (remove the first matching document);
* `$push` on an array field    → append at the end of the field;
* `$pull` on an array field    → remove every equal element of the field.

Timestamps (`datetime.now(timezone.utc)`) are modelled as a `Nat` clock value
passed to each handler; generated document ids (`uuid.uuid4()`) are passed as
explicit `String` arguments.  `bcrypt` hashing/verification is abstract: the
handlers take the hashing or checking function as a parameter.

Each handler returns `Except HTTPError α`: `HTTPException(status, detail)`
becomes `.error ⟨status, detail⟩`, and a successful handler returns its
response together with the new database state.  In every handler of the source
all `raise` statements precede all writes, so an error outcome never carries a
state change.
-/

/-- `HTTPException(status_code, detail)` of the source. -/
structure HTTPError where
  status : Nat
  detail : String
deriving DecidableEq, Repr

/-- The `role` field of a user: the `UserRole` string enum. -/
inductive UserRole where
  | user
  | admin
deriving DecidableEq, Repr

/-- Pydantic model `User`.  `created_at`/`updated_at` are clock values. -/
structure User where
  id : String
  email : String
  password_hash : String
  role : UserRole
  profiles : List String
  created_at : Nat
  updated_at : Nat
deriving DecidableEq, Repr

/-- Pydantic model `Profile`.  `maturity_rating` is the enum's string value. -/
structure Profile where
  id : String
  user_id : String
  name : String
  avatar : String
  language : String
  maturity_rating : String
  watch_history : List String
  watchlist : List String
  created_at : Nat
deriving DecidableEq, Repr

/-- Pydantic model `ProfileUpdate`: every field optional; `None` fields are
dropped from the `$set` document. -/
structure ProfileUpdate where
  name : Option String := none
  avatar : Option String := none
  language : Option String := none
  maturity_rating : Option String := none
  watchlist : Option (List String) := none
deriving DecidableEq, Repr

/-- Pydantic model `Movie`.  `category` is the `MovieCategory` enum's string
value; `rating` (a float bounded to [0,10] by pydantic, unused by any handler
logic) is modelled as an integer number of tenths; `i18n` is an association
list standing for the nested string dictionary. -/
structure Movie where
  id : String
  slug : String
  title : String
  description : String
  category : String
  poster_url : String
  backdrop_url : String
  video_url : String
  release_year : Int
  rating : Int
  duration_minutes : Int
  tags : List String
  languages : List String
  i18n : List (String × List (String × String))
  created_at : Nat
  updated_at : Nat
deriving DecidableEq, Repr

/-- Pydantic model `MovieCreate` (the request body of `POST /movies`). -/
structure MovieCreate where
  slug : String
  title : String
  description : String
  category : String
  poster_url : String
  backdrop_url : String
  video_url : String
  release_year : Int
  rating : Int
  duration_minutes : Int
  tags : List String := []
  languages : List String := []
  i18n : List (String × List (String × String)) := []
deriving DecidableEq, Repr

/-- Pydantic model `MovieUpdate`: every field optional. -/
structure MovieUpdate where
  slug : Option String := none
  title : Option String := none
  description : Option String := none
  category : Option String := none
  poster_url : Option String := none
  backdrop_url : Option String := none
  video_url : Option String := none
  release_year : Option Int := none
  rating : Option Int := none
  duration_minutes : Option Int := none
  tags : Option (List String) := none
  languages : Option (List String) := none
  i18n : Option (List (String × List (String × String))) := none
deriving DecidableEq, Repr

/-- Pydantic model `ViewProgress`. -/
structure ViewProgress where
  id : String
  profile_id : String
  movie_id : String
  progress_seconds : Int
  completed : Bool
  last_watched : Nat
deriving DecidableEq, Repr

/-- The four MongoDB collections of the application, in natural order. -/
structure DB where
  users : List User
  profiles : List Profile
  movies : List Movie
  view_progress : List ViewProgress
deriving DecidableEq, Repr

/-- A decoded JWT payload: `{"sub": …, "exp": …}`.  Signing is not modelled
(the secret never varies inside the program), so a token is its payload. -/
structure Token where
  sub : String
  exp : Nat
deriving DecidableEq, Repr

/-- `ACCESS_TOKEN_EXPIRE_MINUTES = 30`, in seconds. -/
def accessTokenLifetime : Nat := 30 * 60

/-- `REFRESH_TOKEN_EXPIRE_DAYS = 7`, in seconds. -/
def refreshTokenLifetime : Nat := 7 * 24 * 60 * 60

/-- `create_access_token(data={"sub": sub})` at clock value `now`. -/
def create_access_token (sub : String) (now : Nat) : Token :=
  { sub := sub, exp := now + accessTokenLifetime }

/-- `create_refresh_token(data={"sub": sub})` at clock value `now`. -/
def create_refresh_token (sub : String) (now : Nat) : Token :=
  { sub := sub, exp := now + refreshTokenLifetime }

/-- `update_one(filter, {"$set": …})`: rewrite the first matching document. -/
def updateFirst (p : α → Bool) (f : α → α) : List α → List α
  | [] => []
  | x :: xs => if p x then f x :: xs else x :: updateFirst p f xs

/-- `get_current_user`: decode the bearer token (expiry check done by
`jwt.decode`), then load the user by the `sub` claim. -/
def get_current_user (db : DB) (tok : Token) (now : Nat) : Except HTTPError User :=
  if tok.exp ≤ now then .error ⟨401, "Token expired"⟩
  else
    match db.users.find? (fun u => u.id = tok.sub) with
    | none => .error ⟨401, "User not found"⟩
    | some u => .ok u

/-- `POST /auth/register`.  `hash_password` (bcrypt with a fresh salt) is the
parameter `hashPassword`; `newId` is the generated `uuid4` for the new user. -/
def register (hashPassword : String → String) (db : DB)
    (email password : String) (newId : String) (now : Nat) :
    Except HTTPError (Token × Token × DB) :=
  match db.users.find? (fun u => u.email = email) with
  | some _ => .error ⟨400, "Email already registered"⟩
  | none =>
    let user : User :=
      { id := newId, email := email, password_hash := hashPassword password,
        role := .user, profiles := [], created_at := now, updated_at := now }
    .ok (create_access_token user.id now, create_refresh_token user.id now,
         { db with users := db.users ++ [user] })

/-- `POST /auth/login`.  `verify_password` (bcrypt check) is the parameter
`verifyPassword`.  A missing user and a failed password check raise the same
exception. -/
def login (verifyPassword : String → String → Bool) (db : DB)
    (email password : String) (now : Nat) : Except HTTPError (Token × Token) :=
  match db.users.find? (fun u => u.email = email) with
  | none => .error ⟨401, "Invalid email or password"⟩
  | some user =>
    if verifyPassword password user.password_hash then
      .ok (create_access_token user.id now, create_refresh_token user.id now)
    else .error ⟨401, "Invalid email or password"⟩

/-- Whether a `ProfileUpdate` produces an empty `$set` document (the source
skips the `update_one` call in that case). -/
def ProfileUpdate.isEmpty (u : ProfileUpdate) : Bool :=
  u.name.isNone && u.avatar.isNone && u.language.isNone &&
  u.maturity_rating.isNone && u.watchlist.isNone

/-- `$set` with the non-`None` fields of a `ProfileUpdate`. -/
def applyProfileUpdate (u : ProfileUpdate) (p : Profile) : Profile :=
  { p with
    name := u.name.getD p.name
    avatar := u.avatar.getD p.avatar
    language := u.language.getD p.language
    maturity_rating := u.maturity_rating.getD p.maturity_rating
    watchlist := u.watchlist.getD p.watchlist }

/-- `PUT /profiles/{profile_id}` for the principal `uid`.  The handler
re-reads the profile by id after the update; if that read came back empty the
handler would throw, which FastAPI surfaces as a 500 response. -/
def update_profile (db : DB) (uid profile_id : String) (u : ProfileUpdate) :
    Except HTTPError (Profile × DB) :=
  match db.profiles.find? (fun p => p.id = profile_id && p.user_id = uid) with
  | none => .error ⟨404, "Profile not found"⟩
  | some _ =>
    let db' :=
      if u.isEmpty then db
      else { db with
             profiles := updateFirst (fun p => p.id = profile_id)
               (applyProfileUpdate u) db.profiles }
    match db'.profiles.find? (fun p => p.id = profile_id) with
    | none => .error ⟨500, "Internal Server Error"⟩
    | some p => .ok (p, db')

/-- `DELETE /profiles/{profile_id}` for the principal `uid`: delete the
profile document, `$pull` its id from the user's `profiles` array. -/
def delete_profile (db : DB) (uid profile_id : String) :
    Except HTTPError (String × DB) :=
  match db.profiles.find? (fun p => p.id = profile_id && p.user_id = uid) with
  | none => .error ⟨404, "Profile not found"⟩
  | some _ =>
    let db' := { db with profiles := db.profiles.eraseP (fun p => p.id = profile_id) }
    let db'' := { db' with
                  users := updateFirst (fun u => u.id = uid)
                    (fun u => { u with profiles := u.profiles.filter (fun q => q ≠ profile_id) })
                    db'.users }
    .ok ("Profile deleted successfully", db'')

/-! ## The `$regex`/`$options: "i"` filter of `GET /movies`

The search clause `{"$regex": search, "$options": "i"}` hands the search text
to the storage engine as a case-insensitive, unanchored regular expression.
We model the fragment built from literal characters, the `.` any-character
wildcard, and the postfix quantifiers `*` (zero or more), `+` (one or more)
and `?` (zero or one) on a single atom.  The remaining PCRE metacharacters
(backslash, `^`, `$`, `|`, parentheses, brackets and braces) are not
interpreted by the model, so every general theorem about the search
restricts the pattern to strings containing none of `regexMetachars`, where
the modelled fragment and the full language agree character for character.
(The model also ignores two fragment-internal corners no theorem touches: a
quantifier with no atom before it is read as a literal where the real engine
rejects the pattern, and the model's `.` matches the newline character,
which the engine's default dot does not.) -/

/-- The PCRE metacharacters.  `Char.ofNat 123` and `Char.ofNat 125` are the
opening and closing curly braces. -/
def regexMetachars : List Char :=
  ['\\', '^', '$', '.', '|', '?', '*', '+', '(', ')', '[', ']',
   Char.ofNat 123, Char.ofNat 125]

/-- A regex atom of the modelled fragment: the `.` wildcard or one literal
character. -/
inductive RAtom where
  | dot
  | lit (c : Char)
deriving DecidableEq, Repr

/-- The quantifier attached to an atom: exactly once, `*`, `+` or `?`. -/
inductive RQuant where
  | one
  | star
  | plus
  | opt
deriving DecidableEq, Repr

/-- One atom against one text character, case-insensitively. -/
def ratomMatches : RAtom → Char → Bool
  | .dot, _ => true
  | .lit p, c => p.toLower = c.toLower

/-- Read the pattern as a list of atoms with their postfix quantifiers. -/
def parsePattern : List Char → List (RAtom × RQuant)
  | [] => []
  | [c] => [((if c = '.' then RAtom.dot else RAtom.lit c), RQuant.one)]
  | c :: c2 :: rest =>
    let atom := if c = '.' then RAtom.dot else RAtom.lit c
    if c2 = '*' then (atom, RQuant.star) :: parsePattern rest
    else if c2 = '+' then (atom, RQuant.plus) :: parsePattern rest
    else if c2 = '?' then (atom, RQuant.opt) :: parsePattern rest
    else (atom, RQuant.one) :: parsePattern (c2 :: rest)

/-- Backtracking matcher: does the token list match a prefix of the text?
The recursion is fuelled so that it stays structural (and thus computes
inside the kernel); every recursive call strictly decreases
`toks.length + text.length`, so the `toks.length + text.length + 1` fuel
supplied by `matchToks` always reaches an answer and the `0` arm is never
hit.  Greedy versus lazy repetition does not matter for existence of a
match, which is all a filter observes: both consuming and skipping orders
are tried. -/
def matchToksFuel : Nat → List (RAtom × RQuant) → List Char → Bool
  | 0, _, _ => false
  | _ + 1, [], _ => true
  | _ + 1, (_, RQuant.one) :: _, [] => false
  | f + 1, (a, RQuant.one) :: ts, c :: cs =>
    ratomMatches a c && matchToksFuel f ts cs
  | f + 1, (_, RQuant.opt) :: ts, [] => matchToksFuel f ts []
  | f + 1, (a, RQuant.opt) :: ts, c :: cs =>
    matchToksFuel f ts (c :: cs) || (ratomMatches a c && matchToksFuel f ts cs)
  | f + 1, (_, RQuant.star) :: ts, [] => matchToksFuel f ts []
  | f + 1, (a, RQuant.star) :: ts, c :: cs =>
    matchToksFuel f ts (c :: cs) ||
      (ratomMatches a c && matchToksFuel f ((a, RQuant.star) :: ts) cs)
  | _ + 1, (_, RQuant.plus) :: _, [] => false
  | f + 1, (a, RQuant.plus) :: ts, c :: cs =>
    ratomMatches a c && matchToksFuel f ((a, RQuant.star) :: ts) cs

/-- The token list matches a prefix of the text. -/
def matchToks (toks : List (RAtom × RQuant)) (text : List Char) : Bool :=
  matchToksFuel (toks.length + text.length + 1) toks text

/-- Unanchored search: the token list matches at some position. -/
def regexSearchToks (toks : List (RAtom × RQuant)) : List Char → Bool
  | [] => matchToks toks []
  | c :: cs => matchToks toks (c :: cs) || regexSearchToks toks cs

/-- `{"$regex": pat, "$options": "i"}` applied to the string `s`. -/
def regexSearchStr (pat s : String) : Bool :=
  regexSearchToks (parsePattern pat.data) s.data

/-- The pattern, read as a literal, is a prefix of the text up to case. -/
def substrHere : List Char → List Char → Bool
  | [], _ => true
  | _ :: _, [] => false
  | p :: ps, c :: cs => (p.toLower = c.toLower) && substrHere ps cs

/-- Case-insensitive substring containment, the relation the specification
describes the search with. -/
def substringCI (pat : List Char) : List Char → Bool
  | [] => substrHere pat []
  | c :: cs => substrHere pat (c :: cs) || substringCI pat cs

/-- Case-insensitive substring containment on strings. -/
def substringCIStr (pat s : String) : Bool :=
  substringCI pat.data s.data

/-! ## Movie routes -/

/-- The filter document built by `GET /movies` applied to one movie.  Python
truthiness: `if year:` skips the clause for `year = 0` and `if search:` skips
it for the empty string (a present `category` enum member is always truthy). -/
def movieMatches (category : Option String) (year : Option Int)
    (search : Option String) (m : Movie) : Bool :=
  (match category with
   | none => true
   | some c => m.category = c) &&
  (match year with
   | none => true
   | some y => if y = 0 then true else m.release_year = y) &&
  (match search with
   | none => true
   | some s =>
     if s = "" then true
     else regexSearchStr s m.title || regexSearchStr s m.description)

/-- `.limit(n)` of the driver: `limit(0)` means no limit. -/
def mongoLimit (n : Nat) (l : List α) : List α :=
  if n = 0 then l else l.take n

/-- `GET /movies?category=&year=&search=&limit=` (default `limit = 50`). -/
def get_movies (db : DB) (category : Option String) (year : Option Int)
    (search : Option String) (limit : Nat) : List Movie :=
  mongoLimit limit (db.movies.filter (movieMatches category year search))

/-- `GET /movies/{movie_id}`: a single `find_one` on
`{"$or": [{"id": key}, {"slug": key}]}` — the first movie in natural order
matching either clause. -/
def get_movie (db : DB) (key : String) : Except HTTPError Movie :=
  match db.movies.find? (fun m => m.id = key || m.slug = key) with
  | none => .error ⟨404, "Movie not found"⟩
  | some m => .ok m

/-- `POST /movies` (admin): duplicate-slug check, then insert. -/
def create_movie (db : DB) (data : MovieCreate) (newId : String) (now : Nat) :
    Except HTTPError (Movie × DB) :=
  match db.movies.find? (fun m => m.slug = data.slug) with
  | some _ => .error ⟨400, "Movie with this slug already exists"⟩
  | none =>
    let m : Movie :=
      { id := newId, slug := data.slug, title := data.title,
        description := data.description, category := data.category,
        poster_url := data.poster_url, backdrop_url := data.backdrop_url,
        video_url := data.video_url, release_year := data.release_year,
        rating := data.rating, duration_minutes := data.duration_minutes,
        tags := data.tags, languages := data.languages, i18n := data.i18n,
        created_at := now, updated_at := now }
    .ok (m, { db with movies := db.movies ++ [m] })

/-- `$set` with the non-`None` fields of a `MovieUpdate` plus the always-set
`updated_at` (so the `$set` document is never empty, and no slug check). -/
def applyMovieUpdate (u : MovieUpdate) (now : Nat) (m : Movie) : Movie :=
  { m with
    slug := u.slug.getD m.slug
    title := u.title.getD m.title
    description := u.description.getD m.description
    category := u.category.getD m.category
    poster_url := u.poster_url.getD m.poster_url
    backdrop_url := u.backdrop_url.getD m.backdrop_url
    video_url := u.video_url.getD m.video_url
    release_year := u.release_year.getD m.release_year
    rating := u.rating.getD m.rating
    duration_minutes := u.duration_minutes.getD m.duration_minutes
    tags := u.tags.getD m.tags
    languages := u.languages.getD m.languages
    i18n := u.i18n.getD m.i18n
    updated_at := now }

/-- `PUT /movies/{movie_id}` (admin).  The handler re-reads the movie by id
after the update; an empty read there would surface as a 500 response. -/
def update_movie (db : DB) (movie_id : String) (u : MovieUpdate) (now : Nat) :
    Except HTTPError (Movie × DB) :=
  match db.movies.find? (fun m => m.id = movie_id) with
  | none => .error ⟨404, "Movie not found"⟩
  | some _ =>
    let db' := { db with
                 movies := updateFirst (fun m => m.id = movie_id)
                   (applyMovieUpdate u now) db.movies }
    match db'.movies.find? (fun m => m.id = movie_id) with
    | none => .error ⟨500, "Internal Server Error"⟩
    | some m => .ok (m, db')

/-- `DELETE /movies/{movie_id}` (admin): hard delete, no cascade. -/
def delete_movie (db : DB) (movie_id : String) : Except HTTPError (String × DB) :=
  match db.movies.find? (fun m => m.id = movie_id) with
  | none => .error ⟨404, "Movie not found"⟩
  | some _ =>
    .ok ("Movie deleted successfully",
         { db with movies := db.movies.eraseP (fun m => m.id = movie_id) })

/-! ## View progress routes -/

/-- The comparison `.sort("last_watched", -1)` sorts by: descending
`last_watched` (the driver fixes no tie order; the model keeps natural order
on ties). -/
def lastWatchedGE (a b : ViewProgress) : Prop :=
  b.last_watched ≤ a.last_watched

instance : DecidableRel lastWatchedGE := fun a b =>
  inferInstanceAs (Decidable (b.last_watched ≤ a.last_watched))

/-- `GET /views/continue?profile_id=`: ownership check, filter to incomplete
records with strictly more than 30 elapsed seconds, sort by `last_watched`
descending, keep at most 10 (`to_list(length=10)`), then join each with its
movie, dropping records whose movie no longer exists. -/
def get_continue_watching (db : DB) (uid profile_id : String) :
    Except HTTPError (List (Movie × ViewProgress)) :=
  match db.profiles.find? (fun p => p.id = profile_id && p.user_id = uid) with
  | none => .error ⟨404, "Profile not found"⟩
  | some _ =>
    let qualifying := db.view_progress.filter
      (fun v => v.profile_id = profile_id && v.completed = false && v.progress_seconds > 30)
    let top := (qualifying.insertionSort lastWatchedGE).take 10
    .ok (top.filterMap (fun v =>
      (db.movies.find? (fun m => m.id = v.movie_id)).map (fun m => (m, v))))

/-- `PUT /views/{movie_id}?profile_id=`: ownership check, movie existence
check, upsert of the `(profile, movie)` progress record, then append the
movie id to the profile's `watch_history` if absent. -/
def update_view_progress (db : DB) (uid movie_id profile_id : String)
    (progress_seconds : Int) (completed : Bool) (newId : String) (now : Nat) :
    Except HTTPError (String × DB) :=
  match db.profiles.find? (fun p => p.id = profile_id && p.user_id = uid) with
  | none => .error ⟨404, "Profile not found"⟩
  | some profile =>
    match db.movies.find? (fun m => m.id = movie_id) with
    | none => .error ⟨404, "Movie not found"⟩
    | some _ =>
      let db1 :=
        match db.view_progress.find?
            (fun v => v.profile_id = profile_id && v.movie_id = movie_id) with
        | some progress =>
          { db with
            view_progress := updateFirst (fun v => v.id = progress.id)
              (fun v => { v with
                          progress_seconds := progress_seconds
                          completed := completed
                          last_watched := now })
              db.view_progress }
        | none =>
          { db with
            view_progress := db.view_progress ++
              [{ id := newId, profile_id := profile_id, movie_id := movie_id,
                 progress_seconds := progress_seconds, completed := completed,
                 last_watched := now }] }
      let db2 :=
        if profile.watch_history.contains movie_id then db1
        else { db1 with
               profiles := updateFirst (fun p => p.id = profile_id)
                 (fun p => { p with watch_history := p.watch_history ++ [movie_id] })
                 db1.profiles }
      .ok ("Progress updated successfully", db2)

/-! ## Watchlist routes -/

/-- `POST /profiles/{profile_id}/watchlist/{movie_id}`: ownership check,
movie existence check, then append-if-absent with a distinct message when the
id is already present. -/
def add_to_watchlist (db : DB) (uid profile_id movie_id : String) :
    Except HTTPError (String × DB) :=
  match db.profiles.find? (fun p => p.id = profile_id && p.user_id = uid) with
  | none => .error ⟨404, "Profile not found"⟩
  | some profile =>
    match db.movies.find? (fun m => m.id = movie_id) with
    | none => .error ⟨404, "Movie not found"⟩
    | some _ =>
      if profile.watchlist.contains movie_id then
        .ok ("Already in watchlist", db)
      else
        .ok ("Added to watchlist",
             { db with
               profiles := updateFirst (fun p => p.id = profile_id)
                 (fun p => { p with watchlist := p.watchlist ++ [movie_id] })
                 db.profiles })

/-! ## Fixtures used to instantiate the theorems at concrete inputs -/

/-- A registered user owning profile `p1`. -/
def userA : User :=
  { id := "uA", email := "a@example.com", password_hash := "h:secretA",
    role := .user, profiles := ["p1"], created_at := 0, updated_at := 0 }

/-- A second registered user, owning nothing. -/
def userB : User :=
  { id := "uB", email := "b@example.com", password_hash := "h:secretB",
    role := .user, profiles := [], created_at := 0, updated_at := 0 }

/-- The profile owned by `userA`. -/
def profileA : Profile :=
  { id := "p1", user_id := "uA", name := "Main", avatar := "default",
    language := "en", maturity_rating := "PG-13", watch_history := [],
    watchlist := [], created_at := 0 }

/-- A catalog movie. -/
def movieBuck : Movie :=
  { id := "m1", slug := "big-buck-bunny", title := "Big Buck Bunny",
    description := "A giant rabbit takes revenge.", category := "animation",
    poster_url := "", backdrop_url := "", video_url := "",
    release_year := 2008, rating := 76, duration_minutes := 10,
    tags := [], languages := [], i18n := [], created_at := 0, updated_at := 0 }

/-- A database with both users, `userA`'s profile and one movie. -/
def exDB : DB :=
  { users := [userA, userB], profiles := [profileA], movies := [movieBuck],
    view_progress := [] }

/-- A concrete stand-in for the abstract bcrypt pair: hashing prefixes the
password, verification checks that shape. -/
def exHash (pw : String) : String := "h:" ++ pw

/-- Verification matching `exHash`. -/
def exVerify (pw h : String) : Bool := h = "h:" ++ pw

/-! ## Helper lemmas about `find?` and `updateFirst` -/

/-- If `a` is the first element satisfying `p` and it also satisfies `q`,
then `a` is the first element satisfying `p && q`. -/
theorem find?_and_of_find? {α : Type} (p q : α → Bool) (l : List α) (a : α)
    (h : l.find? p = some a) (hq : q a = true) :
    l.find? (fun x => p x && q x) = some a := by
  induction l with
  | nil => simp at h
  | cons x xs ih =>
    by_cases hp : p x = true
    · rw [List.find?_cons_of_pos _ hp] at h
      cases h
      rw [List.find?_cons_of_pos]
      simp [hp, hq]
    · have hp' : p x = false := by simpa using hp
      rw [List.find?_cons_of_neg _ (by simp [hp'])] at h
      rw [List.find?_cons_of_neg _ (by simp [hp'])]
      exact ih h

/-- Rewriting the first element satisfying `p` and searching again finds the
rewritten element, provided the rewrite keeps `p`. -/
theorem find?_updateFirst_self {α : Type} (p : α → Bool) (f : α → α) (l : List α)
    (a : α) (h : l.find? p = some a) (hf : p (f a) = true) :
    (updateFirst p f l).find? p = some (f a) := by
  induction l with
  | nil => simp at h
  | cons x xs ih =>
    by_cases hp : p x = true
    · rw [List.find?_cons_of_pos _ hp] at h
      cases h
      rw [updateFirst, if_pos hp, List.find?_cons_of_pos _ hf]
    · have hp' : p x = false := by simpa using hp
      rw [List.find?_cons_of_neg _ (by simp [hp'])] at h
      rw [updateFirst, if_neg (by simp [hp']), List.find?_cons_of_neg _ (by simp [hp'])]
      exact ih h

/-- `updateFirst` touches nothing when no element satisfies the filter. -/
theorem updateFirst_of_find?_eq_none {α : Type} (p : α → Bool) (f : α → α)
    (l : List α) (h : l.find? p = none) : updateFirst p f l = l := by
  induction l with
  | nil => rfl
  | cons x xs ih =>
    rw [List.find?_cons] at h
    by_cases hp : p x = true
    · simp [hp] at h
    · have hp' : p x = false := by simpa using hp
      rw [updateFirst, if_neg (by simp [hp'])]
      simp only [hp', Bool.false_eq_true, if_neg] at h
      rw [ih (by simpa [hp'] using h)]

/-! ## C1 — ownership failures indistinguishable from non-existence -/

/-- C1: for every principal `uid` and `profile_id`, if no profile both has
that id and belongs to `uid` — which covers both a profile that does not
exist and one owned by a different user — then the profile update and the
profile delete handlers fail with the very same error: status 404 and detail
"Profile not found".  The two failure cases are literally the same value, so
a non-owner cannot distinguish another user's profile from a missing one. -/
theorem profile_update_delete_notFound_uniform (db : DB) (uid profile_id : String)
    (u : ProfileUpdate)
    (h : ∀ p ∈ db.profiles, p.id = profile_id → p.user_id ≠ uid) :
    update_profile db uid profile_id u = .error ⟨404, "Profile not found"⟩ ∧
    delete_profile db uid profile_id = .error ⟨404, "Profile not found"⟩ := by
  have hf : db.profiles.find? (fun p => p.id = profile_id && p.user_id = uid) = none := by
    rw [List.find?_eq_none]
    intro p hp
    simp only [Bool.and_eq_true, decide_eq_true_eq, not_and]
    exact h p hp
  exact ⟨by simp [update_profile, hf], by simp [delete_profile, hf]⟩

/-- C1 at a concrete input: `userB` updating or deleting `userA`'s profile
`p1` (which exists) gets the same 404 a non-existent profile would get. -/
theorem profile_update_delete_notFound_uniform_witness :
    (update_profile exDB "uB" "p1" {} = .error ⟨404, "Profile not found"⟩ ∧
      delete_profile exDB "uB" "p1" = .error ⟨404, "Profile not found"⟩) ∧
    (update_profile exDB "uA" "nope" {} = .error ⟨404, "Profile not found"⟩ ∧
      delete_profile exDB "uA" "nope" = .error ⟨404, "Profile not found"⟩) :=
  ⟨profile_update_delete_notFound_uniform exDB "uB" "p1" {} (by decide),
   profile_update_delete_notFound_uniform exDB "uA" "nope" {} (by decide)⟩

/-! ## C2 — register: conflict on duplicate email, else token pair -/

/-- C2: for every email and password, registration with an email some user
already has fails with the Conflict error (the handler raises before any
write, so the error outcome carries no state change); with a fresh email and
a fresh generated id it appends exactly the new user, whose stored hash is
the hash of the input password, and returns a token pair whose access token
resolves (at the same clock value) back to a principal whose email is the
input email. -/
theorem register_conflict_else_token_resolves
    (hashPassword : String → String) (db : DB)
    (email password newId : String) (now : Nat) :
    ((∃ u ∈ db.users, u.email = email) →
      register hashPassword db email password newId now =
        .error ⟨400, "Email already registered"⟩) ∧
    ((∀ u ∈ db.users, u.email ≠ email) → (∀ u ∈ db.users, u.id ≠ newId) →
      ∃ access refresh db',
        register hashPassword db email password newId now =
          .ok (access, refresh, db') ∧
        db'.users = db.users ++
          [{ id := newId, email := email,
             password_hash := hashPassword password, role := .user,
             profiles := [], created_at := now, updated_at := now }] ∧
        ∃ u, get_current_user db' access now = .ok u ∧ u.email = email) := by
  constructor
  · rintro ⟨u, hu, he⟩
    have hf : ∃ v, db.users.find? (fun v => v.email = email) = some v := by
      have : (db.users.find? (fun v => v.email = email)).isSome := by
        rw [List.find?_isSome]
        exact ⟨u, hu, by simp [he]⟩
      exact Option.isSome_iff_exists.mp this
    obtain ⟨v, hv⟩ := hf
    simp [register, hv]
  · intro hfresh hid
    have hf : db.users.find? (fun v => v.email = email) = none := by
      rw [List.find?_eq_none]
      intro u hu
      simp only [decide_eq_true_eq]
      exact hfresh u hu
    refine ⟨create_access_token newId now, create_refresh_token newId now,
      { db with users := db.users ++
          [{ id := newId, email := email,
             password_hash := hashPassword password, role := .user,
             profiles := [], created_at := now, updated_at := now }] },
      by simp [register, hf], rfl, ?_⟩
    refine ⟨{ id := newId, email := email,
              password_hash := hashPassword password, role := .user,
              profiles := [], created_at := now, updated_at := now },
            ?_, rfl⟩
    have hexp : ¬ (create_access_token newId now).exp ≤ now := by
      simp [create_access_token, accessTokenLifetime]
    have hfid : db.users.find? (fun u => u.id = newId) = none := by
      rw [List.find?_eq_none]
      intro u hu
      simp only [decide_eq_true_eq]
      exact hid u hu
    simp [get_current_user, hexp, List.find?_append, hfid, create_access_token,
      accessTokenLifetime]

/-- C2 at a concrete input: a duplicate registration for `userA`'s email
conflicts, and a fresh registration stores the hash and yields an access
token resolving to the new email. -/
theorem register_conflict_else_token_resolves_witness :
    (register exHash exDB "a@example.com" "pw" "uC" 5 =
      .error ⟨400, "Email already registered"⟩) ∧
    (∃ access refresh db',
      register exHash exDB "c@example.com" "pw" "uC" 5 =
        .ok (access, refresh, db') ∧
      db'.users = exDB.users ++
        [{ id := "uC", email := "c@example.com", password_hash := exHash "pw",
           role := .user, profiles := [], created_at := 5, updated_at := 5 }] ∧
      ∃ u, get_current_user db' access 5 = .ok u ∧ u.email = "c@example.com") :=
  ⟨(register_conflict_else_token_resolves exHash exDB "a@example.com" "pw" "uC" 5).1
      ⟨userA, by decide, by decide⟩,
   (register_conflict_else_token_resolves exHash exDB "c@example.com" "pw" "uC" 5).2
      (by decide) (by decide)⟩

/-! ## C3 — login leaks nothing about which credential part failed -/

/-- C3: an unknown email and a known email with a non-verifying password
produce the very same error value — status 401, detail
"Invalid email or password" — so the response does not reveal whether the
email is registered; and whenever the stored hash verifies, login returns the
access/refresh token pair for the matched user. -/
theorem login_unauthorized_uniform
    (verifyPassword : String → String → Bool) (db1 db2 : DB)
    (e1 pw1 e2 pw2 : String) (now1 now2 : Nat) (u : User)
    (h1 : ∀ v ∈ db1.users, v.email ≠ e1)
    (h2 : db2.users.find? (fun v => v.email = e2) = some u)
    (h3 : verifyPassword pw2 u.password_hash = false) :
    login verifyPassword db1 e1 pw1 now1 = .error ⟨401, "Invalid email or password"⟩ ∧
    login verifyPassword db2 e2 pw2 now2 = .error ⟨401, "Invalid email or password"⟩ ∧
    login verifyPassword db1 e1 pw1 now1 = login verifyPassword db2 e2 pw2 now2 ∧
    (∀ (db : DB) (e pw : String) (now : Nat) (w : User),
      db.users.find? (fun v => v.email = e) = some w →
      verifyPassword pw w.password_hash = true →
      login verifyPassword db e pw now =
        .ok (create_access_token w.id now, create_refresh_token w.id now)) := by
  have hf : db1.users.find? (fun v => v.email = e1) = none := by
    rw [List.find?_eq_none]
    intro v hv
    simp only [decide_eq_true_eq]
    exact h1 v hv
  refine ⟨by simp [login, hf], by simp [login, h2, h3], ?_, ?_⟩
  · simp [login, hf, h2, h3]
  · intro db e pw now w hw hv
    simp [login, hw, hv]

/-- C3 at concrete inputs: logging in with an unregistered email and logging
in as `userA` with the wrong password yield the identical 401; the right
password succeeds. -/
theorem login_unauthorized_uniform_witness :
    login exVerify exDB "nobody@example.com" "x" 0 =
      .error ⟨401, "Invalid email or password"⟩ ∧
    login exVerify exDB "a@example.com" "wrong" 0 =
      .error ⟨401, "Invalid email or password"⟩ ∧
    login exVerify exDB "nobody@example.com" "x" 0 =
      login exVerify exDB "a@example.com" "wrong" 0 ∧
    login exVerify exDB "a@example.com" "secretA" 0 =
      .ok (create_access_token "uA" 0, create_refresh_token "uA" 0) := by
  obtain ⟨a, b, c, d⟩ :=
    login_unauthorized_uniform exVerify exDB exDB "nobody@example.com" "x"
      "a@example.com" "wrong" 0 0 userA (by decide) (by decide) (by decide)
  exact ⟨a, b, c, d exDB "a@example.com" "secretA" 0 userA (by decide) (by decide)⟩

/-! ## C9 — watchlist add is idempotent -/

/-- C9: for an owned profile (`prof` being the first profile with that id,
owned by `uid`), an existing movie and a movie id not yet on the watchlist,
the first add appends the id to the end of the watchlist, and a second add
with the same arguments keeps the state unchanged, leaves exactly one
occurrence of the id on the watchlist, and reports "Already in watchlist" —
a distinct success outcome, not an error. -/
theorem add_to_watchlist_idempotent (db : DB) (uid pid mid : String)
    (prof : Profile)
    (h1 : db.profiles.find? (fun p => p.id = pid) = some prof)
    (h2 : prof.user_id = uid)
    (h3 : (db.movies.find? (fun m => m.id = mid)).isSome = true)
    (h4 : mid ∉ prof.watchlist) :
    ∃ db1 prof1,
      add_to_watchlist db uid pid mid = .ok ("Added to watchlist", db1) ∧
      db1.profiles.find? (fun p => p.id = pid) = some prof1 ∧
      prof1.watchlist = prof.watchlist ++ [mid] ∧
      prof1.watchlist.count mid = 1 ∧
      add_to_watchlist db1 uid pid mid = .ok ("Already in watchlist", db1) ∧
      ("Already in watchlist" : String) ≠ "Added to watchlist" := by
  obtain ⟨m, hm⟩ := Option.isSome_iff_exists.mp h3
  have hid : prof.id = pid := by
    have := List.find?_some h1
    simpa using this
  have hconj : db.profiles.find? (fun p => p.id = pid && p.user_id = uid) = some prof :=
    find?_and_of_find? _ _ _ _ h1 (by simp [h2])
  have hcont : prof.watchlist.contains mid = false := by
    simpa using h4
  refine ⟨{ db with
            profiles := updateFirst (fun p => p.id = pid)
              (fun p => { p with watchlist := p.watchlist ++ [mid] })
              db.profiles },
          { prof with watchlist := prof.watchlist ++ [mid] },
          by simp [add_to_watchlist, hconj, hm, hcont, h4], ?_, rfl, ?_, ?_, by decide⟩
  · exact find?_updateFirst_self _ _ _ _ h1 (by simp [hid])
  · rw [List.count_append, List.count_eq_zero.mpr h4]
    simp
  · have hfind1 : (updateFirst (fun p => p.id = pid)
        (fun p => { p with watchlist := p.watchlist ++ [mid] })
        db.profiles).find? (fun p => p.id = pid) =
        some { prof with watchlist := prof.watchlist ++ [mid] } :=
      find?_updateFirst_self _ _ _ _ h1 (by simp [hid])
    have hconj1 : (updateFirst (fun p => p.id = pid)
        (fun p => { p with watchlist := p.watchlist ++ [mid] })
        db.profiles).find? (fun p => p.id = pid && p.user_id = uid) =
        some { prof with watchlist := prof.watchlist ++ [mid] } :=
      find?_and_of_find? _ _ _ _ hfind1 (by simp [h2])
    simp [add_to_watchlist, hconj1, hm]

/-- C9 at a concrete input: adding movie `m1` to `userA`'s profile `p1`
twice leaves one occurrence and the second call says "Already in
watchlist". -/
theorem add_to_watchlist_idempotent_witness :
    ∃ db1 prof1,
      add_to_watchlist exDB "uA" "p1" "m1" = .ok ("Added to watchlist", db1) ∧
      db1.profiles.find? (fun p => p.id = "p1") = some prof1 ∧
      prof1.watchlist = profileA.watchlist ++ ["m1"] ∧
      prof1.watchlist.count "m1" = 1 ∧
      add_to_watchlist db1 "uA" "p1" "m1" = .ok ("Already in watchlist", db1) ∧
      ("Already in watchlist" : String) ≠ "Added to watchlist" :=
  add_to_watchlist_idempotent exDB "uA" "p1" "m1" profileA
    (by decide) (by decide) (by decide) (by decide)

/-! ## C10 — profile update replaces the watchlist unchecked -/

/-- C10: the profile-update partial accepts a `watchlist` field, so the
owning principal can replace the profile's entire watchlist with ANY list of
ids in one update call: the theorem quantifies over an arbitrary `l` with no
hypothesis about `db.movies` (no movie-existence check) and no distinctness
hypothesis (no dedup), unlike the dedicated watchlist-add operation. -/
theorem profile_update_sets_arbitrary_watchlist (db : DB) (uid pid : String)
    (l : List String) (prof : Profile)
    (h1 : db.profiles.find? (fun p => p.id = pid) = some prof)
    (h2 : prof.user_id = uid) :
    ∃ db', update_profile db uid pid { watchlist := some l } =
      .ok ({ prof with watchlist := l }, db') ∧
      db'.profiles.find? (fun p => p.id = pid) = some { prof with watchlist := l } := by
  have hid : prof.id = pid := by
    have := List.find?_some h1
    simpa using this
  have hconj : db.profiles.find? (fun p => p.id = pid && p.user_id = uid) = some prof :=
    find?_and_of_find? _ _ _ _ h1 (by simp [h2])
  have happ : applyProfileUpdate { watchlist := some l } prof = { prof with watchlist := l } := by
    simp [applyProfileUpdate]
  have hfind2 : (updateFirst (fun p => p.id = pid)
      (applyProfileUpdate { watchlist := some l }) db.profiles).find?
      (fun p => p.id = pid) = some { prof with watchlist := l } := by
    have := find?_updateFirst_self (fun p => decide (p.id = pid))
      (applyProfileUpdate { watchlist := some l }) db.profiles prof h1
      (by simp [applyProfileUpdate, hid])
    rwa [happ] at this
  refine ⟨{ db with
            profiles := updateFirst (fun p => p.id = pid)
              (applyProfileUpdate { watchlist := some l }) db.profiles },
          ?_, hfind2⟩
  simp [update_profile, hconj, ProfileUpdate.isEmpty, hfind2]

/-- C10 at a concrete input: one update call gives `userA`'s profile the
watchlist `["ghost", "ghost"]` — a duplicated id naming no movie of the
catalog. -/
theorem profile_update_sets_arbitrary_watchlist_witness :
    ∃ db', update_profile exDB "uA" "p1" { watchlist := some ["ghost", "ghost"] } =
      .ok ({ profileA with watchlist := ["ghost", "ghost"] }, db') ∧
      db'.profiles.find? (fun p => p.id = "p1") =
        some { profileA with watchlist := ["ghost", "ghost"] } :=
  profile_update_sets_arbitrary_watchlist exDB "uA" "p1" ["ghost", "ghost"]
    profileA (by decide) (by decide)

/-! ## C8 — movie lookup by id or slug -/

/-- Modelled from the spec's words for comparison with `get_movie` (C8 is a
refinement claim about lookup priority): look the key up as an id first, and
only when no movie has that id, as a slug. -/
def getByIdOrSlugSpec (db : DB) (key : String) : Except HTTPError Movie :=
  match db.movies.find? (fun m => m.id = key) with
  | some m => .ok m
  | none =>
    match db.movies.find? (fun m => m.slug = key) with
    | some m => .ok m
    | none => .error ⟨404, "Movie not found"⟩

/-- An early movie whose admin-chosen slug collides with the id of a later
movie. -/
def movieClashA : Movie :=
  { id := "mA", slug := "mB", title := "First", description := "first doc",
    category := "drama", poster_url := "", backdrop_url := "", video_url := "",
    release_year := 2001, rating := 50, duration_minutes := 90,
    tags := [], languages := [], i18n := [], created_at := 0, updated_at := 0 }

/-- The later movie whose id the key names. -/
def movieClashB : Movie :=
  { id := "mB", slug := "second-slug", title := "Second", description := "second doc",
    category := "drama", poster_url := "", backdrop_url := "", video_url := "",
    release_year := 2002, rating := 60, duration_minutes := 95,
    tags := [], languages := [], i18n := [], created_at := 1, updated_at := 1 }

/-- A catalog holding both clashing movies, in that natural order. -/
def clashDB : DB :=
  { users := [], profiles := [], movies := [movieClashA, movieClashB],
    view_progress := [] }

/-- C8 counterexample: for key `"mB"`, a movie with that id exists
(`movieClashB`), yet the handler — a single `find_one` on
`{"$or": [{"id": key}, {"slug": key}]}` — returns `movieClashA`, the earlier
movie matching only by slug.  The claimed id-first priority does not hold. -/
theorem get_movie_not_id_first_counterexample :
    (movieClashB ∈ clashDB.movies ∧ movieClashB.id = "mB") ∧
    get_movie clashDB "mB" = .ok movieClashA ∧
    movieClashA.id ≠ "mB" ∧
    getByIdOrSlugSpec clashDB "mB" = .ok movieClashB :=
  ⟨⟨by decide, rfl⟩, rfl, by decide, rfl⟩

/-- C8 amended: `getByIdOrSlug` returns the first movie in collection
(natural) order matching the key by id OR by slug, with no priority of id
over slug; it fails with `NotFound` (404, "Movie not found") exactly when no
movie matches the key by id or by slug. -/
theorem get_movie_first_match_characterization (db : DB) (key : String) :
    (∀ m : Movie, get_movie db key = .ok m ↔
      ((m.id = key ∨ m.slug = key) ∧
        ∃ pre post, db.movies = pre ++ m :: post ∧
          ∀ m2 ∈ pre, ¬(m2.id = key ∨ m2.slug = key))) ∧
    (get_movie db key = .error ⟨404, "Movie not found"⟩ ↔
      ∀ m ∈ db.movies, ¬(m.id = key ∨ m.slug = key)) := by
  constructor
  · intro m
    constructor
    · intro h
      have hf : db.movies.find? (fun x => x.id = key || x.slug = key) = some m := by
        unfold get_movie at h
        rcases hc : db.movies.find? (fun x => x.id = key || x.slug = key) with _ | v
        · rw [hc] at h
          simp at h
        · rw [hc] at h
          simp at h
          rw [h] at hc
          exact hc
      rw [List.find?_eq_some] at hf
      obtain ⟨hpm, pre, post, heq, hpre⟩ := hf
      refine ⟨by simpa using hpm, pre, post, heq, fun m2 hm2 => by simpa using hpre m2 hm2⟩
    · rintro ⟨hm, pre, post, heq, hpre⟩
      have hf : db.movies.find? (fun x => x.id = key || x.slug = key) = some m := by
        rw [List.find?_eq_some]
        exact ⟨by simpa using hm, pre, post, heq, fun a ha => by simpa using hpre a ha⟩
      simp [get_movie, hf]
  · constructor
    · intro h
      rcases hc : db.movies.find? (fun x => x.id = key || x.slug = key) with _ | v
      · intro m hm
        rw [List.find?_eq_none] at hc
        simpa using hc m hm
      · exfalso
        unfold get_movie at h
        rw [hc] at h
        simp at h
    · intro h
      have hf : db.movies.find? (fun x => x.id = key || x.slug = key) = none := by
        rw [List.find?_eq_none]
        intro m hm
        simpa using h m hm
      simp [get_movie, hf]

/-! ## C6 — slug uniqueness: enforced by create, broken by update -/

/-- An empty database. -/
def dbS0 : DB := { users := [], profiles := [], movies := [], view_progress := [] }

/-- Create-payload for a movie with slug `"x"`. -/
def slugDataX : MovieCreate :=
  { slug := "x", title := "X", description := "dx", category := "drama",
    poster_url := "", backdrop_url := "", video_url := "",
    release_year := 2000, rating := 50, duration_minutes := 90 }

/-- Create-payload for a movie with slug `"y"`. -/
def slugDataY : MovieCreate :=
  { slugDataX with slug := "y", title := "Y", description := "dy" }

/-- The movie created from `slugDataX`. -/
def movieX : Movie :=
  { id := "m1", slug := "x", title := "X", description := "dx",
    category := "drama", poster_url := "", backdrop_url := "", video_url := "",
    release_year := 2000, rating := 50, duration_minutes := 90,
    tags := [], languages := [], i18n := [], created_at := 0, updated_at := 0 }

/-- The movie created from `slugDataY`. -/
def movieY : Movie :=
  { movieX with
    id := "m2"
    slug := "y"
    title := "Y"
    description := "dy"
    created_at := 1
    updated_at := 1 }

/-- `movieY` after the update that renames its slug to `"x"`. -/
def movieY2 : Movie := { movieY with slug := "x", updated_at := 2 }

/-- State after creating `movieX`. -/
def dbS1 : DB := { dbS0 with movies := [movieX] }

/-- State after also creating `movieY`. -/
def dbS2 : DB := { dbS0 with movies := [movieX, movieY] }

/-- State after the slug-renaming update. -/
def dbS3 : DB := { dbS0 with movies := [movieX, movieY2] }

/-- C6 counterexample: a reachable sequence of movie operations — create slug
`"x"`, create slug `"y"`, then update the second movie's slug to `"x"` (the
update handler performs no slug check) — ends in a state with two distinct
movies carrying the same slug.  Slug uniqueness is NOT preserved by every
operation. -/
theorem movie_slug_update_breaks_uniqueness_counterexample :
    create_movie dbS0 slugDataX "m1" 0 = .ok (movieX, dbS1) ∧
    create_movie dbS1 slugDataY "m2" 1 = .ok (movieY, dbS2) ∧
    update_movie dbS2 "m2" { slug := some "x" } 2 = .ok (movieY2, dbS3) ∧
    movieX ∈ dbS3.movies ∧ movieY2 ∈ dbS3.movies ∧ movieX ≠ movieY2 ∧
    movieX.slug = movieY2.slug :=
  ⟨rfl, rfl, rfl, by decide, by decide, by decide, rfl⟩

/-- C6 amended: movie create fails with the Conflict error when a movie with
the requested slug already exists, and both create and delete preserve
slug-uniqueness of the collection; the movie update operation, however,
performs no slug check, so sequences involving update can produce duplicate
slugs (see the counterexample). -/
theorem movie_create_delete_preserve_slug_uniqueness
    (db : DB) (data : MovieCreate) (newId : String) (now : Nat) (movie_id : String) :
    ((∃ m ∈ db.movies, m.slug = data.slug) →
      create_movie db data newId now =
        .error ⟨400, "Movie with this slug already exists"⟩) ∧
    ((db.movies.map (fun m => m.slug)).Nodup →
      ∀ m db', create_movie db data newId now = .ok (m, db') →
        (db'.movies.map (fun m => m.slug)).Nodup) ∧
    ((db.movies.map (fun m => m.slug)).Nodup →
      ∀ r db', delete_movie db movie_id = .ok (r, db') →
        (db'.movies.map (fun m => m.slug)).Nodup) := by
  refine ⟨?_, ?_, ?_⟩
  · rintro ⟨m, hm, hs⟩
    have : (db.movies.find? (fun x => x.slug = data.slug)).isSome := by
      rw [List.find?_isSome]
      exact ⟨m, hm, by simp [hs]⟩
    obtain ⟨v, hv⟩ := Option.isSome_iff_exists.mp this
    simp [create_movie, hv]
  · intro hnd m db' h
    rcases hc : db.movies.find? (fun x => x.slug = data.slug) with _ | v
    · have hnotin : data.slug ∉ db.movies.map (fun m => m.slug) := by
        rw [List.find?_eq_none] at hc
        intro hmem
        obtain ⟨w, hw, hws⟩ := List.mem_map.mp hmem
        exact hc w hw (by simp [hws])
      unfold create_movie at h
      rw [hc] at h
      simp only [Except.ok.injEq, Prod.mk.injEq] at h
      obtain ⟨_, hdb⟩ := h
      subst hdb
      simp only [List.map_append, List.map_cons, List.map_nil]
      rw [List.nodup_append]
      exact ⟨hnd, by simp, by simpa [List.disjoint_singleton] using hnotin⟩
    · unfold create_movie at h
      rw [hc] at h
      simp at h
  · intro hnd r db' h
    rcases hc : db.movies.find? (fun x => x.id = movie_id) with _ | v
    · unfold delete_movie at h
      rw [hc] at h
      simp at h
    · unfold delete_movie at h
      rw [hc] at h
      simp only [Except.ok.injEq, Prod.mk.injEq] at h
      obtain ⟨_, hdb⟩ := h
      subst hdb
      exact List.Nodup.sublist
        (List.Sublist.map _ (List.eraseP_sublist db.movies)) hnd

/-- C6 amended, at concrete inputs: creating slug `"x"` again on `dbS1`
conflicts; creating slug `"y"` on `dbS1` and deleting `"m2"` from `dbS2`
both keep the slug list duplicate-free. -/
theorem movie_create_delete_preserve_slug_uniqueness_witness :
    create_movie dbS1 slugDataX "m9" 9 =
      .error ⟨400, "Movie with this slug already exists"⟩ ∧
    (dbS2.movies.map (fun m => m.slug)).Nodup ∧
    (dbS1.movies.map (fun m => m.slug)).Nodup := by
  refine ⟨?_, ?_, ?_⟩
  · exact (movie_create_delete_preserve_slug_uniqueness dbS1 slugDataX "m9" 9 "m2").1
      ⟨movieX, by decide, rfl⟩
  · exact (movie_create_delete_preserve_slug_uniqueness dbS1 slugDataY "m2" 1 "m2").2.1
      (by decide) movieY dbS2 rfl
  · exact (movie_create_delete_preserve_slug_uniqueness dbS2 slugDataY "m2" 1 "m2").2.2
      (by decide) "Movie deleted successfully" dbS1 rfl

/-! ## C7 — movie listing: regex search vs. substring search -/

/-- Modelled from the spec's words, for comparison with `get_movies`:
"search matches title OR description via case-insensitive substring; filters
are ANDed", at most `limit` results. -/
def listMoviesSpec (db : DB) (category : Option String) (year : Option Int)
    (s : String) (limit : Nat) : List Movie :=
  (db.movies.filter (fun m =>
    (match category with
     | none => true
     | some c => m.category = c) &&
    (match year with
     | none => true
     | some y => m.release_year = y) &&
    (substringCIStr s m.title || substringCIStr s m.description))).take limit

/-- A pattern free of metacharacters parses to literal atoms, each occurring
exactly once. -/
theorem parsePattern_of_no_meta (pat : List Char)
    (h : ∀ c ∈ pat, c ∉ regexMetachars) :
    parsePattern pat = pat.map (fun c => (RAtom.lit c, RQuant.one)) := by
  induction pat with
  | nil => rfl
  | cons c rest ih =>
    have hc : c ≠ '.' := by
      intro he
      exact h c (List.mem_cons_self c rest) (by rw [he]; decide)
    rcases rest with _ | ⟨c2, rest2⟩
    · simp [parsePattern, hc]
    · have h1 : c2 ≠ '*' := by
        intro he
        exact h c2 (by simp) (by rw [he]; decide)
      have h2 : c2 ≠ '+' := by
        intro he
        exact h c2 (by simp) (by rw [he]; decide)
      have h3 : c2 ≠ '?' := by
        intro he
        exact h c2 (by simp) (by rw [he]; decide)
      have hrec := ih (fun x hx => h x (List.mem_cons_of_mem c hx))
      simp only [parsePattern, if_neg hc, if_neg h1, if_neg h2, if_neg h3]
      rw [hrec]
      simp [hc]

/-- With enough fuel, a list of once-quantified literal atoms matches a
prefix of the text exactly like the literal string does. -/
theorem matchToksFuel_lit (pat : List Char) :
    ∀ (text : List Char) (f : Nat), pat.length + text.length < f →
    matchToksFuel f (pat.map (fun c => (RAtom.lit c, RQuant.one))) text =
      substrHere pat text := by
  induction pat with
  | nil =>
    intro text f hf
    cases f with
    | zero => omega
    | succ f2 => rfl
  | cons p ps ih =>
    intro text f hf
    cases f with
    | zero => omega
    | succ f2 =>
      cases text with
      | nil => rfl
      | cons c cs =>
        simp only [List.map_cons, matchToksFuel, substrHere, ratomMatches]
        rw [ih cs f2 (by simp only [List.length_cons] at hf; omega)]

/-- Once-quantified literal atoms: prefix match is literal prefix match. -/
theorem matchToks_lit (pat text : List Char) :
    matchToks (pat.map (fun c => (RAtom.lit c, RQuant.one))) text =
      substrHere pat text := by
  apply matchToksFuel_lit
  simp only [List.length_map]
  omega

/-- Once-quantified literal atoms: unanchored search is substring search. -/
theorem regexSearchToks_lit (pat : List Char) :
    ∀ text, regexSearchToks (pat.map (fun c => (RAtom.lit c, RQuant.one))) text =
      substringCI pat text := by
  intro text
  induction text with
  | nil => rw [regexSearchToks, substringCI, matchToks_lit]
  | cons c cs ih => rw [regexSearchToks, substringCI, matchToks_lit, ih]

/-- A metacharacter-free search string searches exactly like a
case-insensitive literal substring. -/
theorem regexSearchStr_eq_substringCIStr (pat s : String)
    (h : ∀ c ∈ pat.data, c ∉ regexMetachars) :
    regexSearchStr pat s = substringCIStr pat s := by
  unfold regexSearchStr substringCIStr
  rw [parsePattern_of_no_meta pat.data h, regexSearchToks_lit]

/-- A movie whose title `"A"` and description `"B"` contain no regex
metacharacter literally. -/
def dotMovie : Movie :=
  { id := "md", slug := "plain", title := "A", description := "B",
    category := "drama", poster_url := "", backdrop_url := "", video_url := "",
    release_year := 2010, rating := 70, duration_minutes := 80,
    tags := [], languages := [], i18n := [], created_at := 0, updated_at := 0 }

/-- A catalog holding only `dotMovie`. -/
def dotDB : DB :=
  { users := [], profiles := [], movies := [dotMovie], view_progress := [] }

/-- C7 counterexample, refuting the claim at four concrete inputs.  The
search string is handed to the storage layer as a regular expression, not a
literal: search `"."` (any character) and search `"a*"` (zero or more `a`s,
hence the empty string) each return `dotMovie` although neither string is a
case-insensitive substring of its title `"A"` or description `"B"`.  The
other filters of the claim fail at their falsy values: a provided year
filter of `0` is dropped by Python truthiness, so `dotMovie` (year 2010) is
returned, and with `limit = 0` the storage layer applies no limit at all, so
more than `limit` movies come back. -/
theorem get_movies_regex_not_substring_counterexample :
    (get_movies dotDB none none (some ".") 50 = [dotMovie] ∧
      substringCIStr "." dotMovie.title = false ∧
      substringCIStr "." dotMovie.description = false) ∧
    (get_movies dotDB none none (some "a*") 50 = [dotMovie] ∧
      substringCIStr "a*" dotMovie.title = false ∧
      substringCIStr "a*" dotMovie.description = false) ∧
    (get_movies dotDB none (some 0) none 50 = [dotMovie] ∧
      dotMovie.release_year ≠ 0) ∧
    (get_movies dotDB none none none 0 = [dotMovie] ∧
      ¬ (get_movies dotDB none none none 0).length ≤ 0) :=
  ⟨⟨rfl, rfl, rfl⟩, ⟨rfl, rfl, rfl⟩, ⟨rfl, by decide⟩, ⟨rfl, by decide⟩⟩

/-- C7 amended: for every search string free of regex metacharacters, every
present year filter other than the falsy `0`, and every positive limit, the
listing equals exactly the movies whose title or description contains the
search string as a case-insensitive substring, ANDed with the category and
year filters when present, truncated to the first `limit` matches; in
particular every returned movie contains the search string in its title or
description. -/
theorem get_movies_matches_substring_spec (db : DB) (category : Option String)
    (year : Option Int) (s : String) (limit : Nat)
    (hmeta : ∀ c ∈ s.data, c ∉ regexMetachars)
    (hyear : ∀ y, year = some y → y ≠ 0)
    (hlimit : limit ≠ 0) :
    get_movies db category year (some s) limit = listMoviesSpec db category year s limit ∧
    (get_movies db category year (some s) limit).length ≤ limit ∧
    ∀ m ∈ get_movies db category year (some s) limit,
      substringCIStr s m.title = true ∨ substringCIStr s m.description = true := by
  have hfilter : db.movies.filter (movieMatches category year (some s)) =
      db.movies.filter (fun m =>
        (match category with
         | none => true
         | some c => m.category = c) &&
        (match year with
         | none => true
         | some y => m.release_year = y) &&
        (substringCIStr s m.title || substringCIStr s m.description)) := by
    apply List.filter_congr
    intro m _
    unfold movieMatches
    congr 1
    · congr 1
      cases year with
      | none => rfl
      | some y => simp [hyear y rfl]
    · by_cases hs : s = ""
      · subst hs
        have ht : substringCIStr "" m.title = true := by
          unfold substringCIStr
          cases m.title.data with
          | nil => rfl
          | cons c cs => rw [substringCI, substrHere]; simp
        have hd : substringCIStr "" m.description = true := by
          unfold substringCIStr
          cases m.description.data with
          | nil => rfl
          | cons c cs => rw [substringCI, substrHere]; simp
        simp [ht, hd]
      · show (if s = "" then true
              else regexSearchStr s m.title || regexSearchStr s m.description) =
            (substringCIStr s m.title || substringCIStr s m.description)
        rw [if_neg hs]
        rw [regexSearchStr_eq_substringCIStr s m.title hmeta,
            regexSearchStr_eq_substringCIStr s m.description hmeta]
  have hmain : get_movies db category year (some s) limit =
      listMoviesSpec db category year s limit := by
    unfold get_movies listMoviesSpec mongoLimit
    rw [if_neg hlimit, hfilter]
  refine ⟨hmain, ?_, ?_⟩
  · rw [hmain]
    unfold listMoviesSpec
    exact List.length_take_le limit _
  · intro m hm
    rw [hmain] at hm
    unfold listMoviesSpec at hm
    have hmem := List.mem_of_mem_take hm
    have hpred := List.of_mem_filter hmem
    rcases Bool.and_eq_true_iff.mp hpred with ⟨_, hor⟩
    rcases Bool.or_eq_true_iff.mp hor with h | h
    · exact Or.inl h
    · exact Or.inr h

/-- C7 amended, at a concrete input: searching the catalog for `"buck"`
(metacharacter-free) equals the substring-filtered listing, which here keeps
exactly the one movie whose title contains "Buck" case-insensitively. -/
theorem get_movies_matches_substring_spec_witness :
    get_movies exDB none none (some "buck") 50 =
      listMoviesSpec exDB none none "buck" 50 ∧
    get_movies exDB none none (some "buck") 50 = [movieBuck] := by
  have h := get_movies_matches_substring_spec exDB none none "buck" 50
    (by decide) (fun y hy => nomatch hy) (by decide)
  exact ⟨h.1, rfl⟩

/-! ## C4 — progress upsert keeps one record per (profile, movie) pair -/

/-- When every element before `a` fails the filter and `a` passes it,
`updateFirst` rewrites exactly `a`. -/
theorem updateFirst_append {α : Type} (p : α → Bool) (f : α → α) (l1 l2 : List α)
    (a : α) (h1 : ∀ x ∈ l1, p x = false) (ha : p a = true) :
    updateFirst p f (l1 ++ a :: l2) = l1 ++ f a :: l2 := by
  induction l1 with
  | nil => simp [updateFirst, ha]
  | cons x xs ih =>
    have hx := h1 x (List.mem_cons_self x xs)
    simp only [List.cons_append, updateFirst]
    rw [if_neg (by simp [hx])]
    show x :: updateFirst p f (xs ++ a :: l2) = x :: (xs ++ f a :: l2)
    rw [ih (fun y hy => h1 y (List.mem_cons_of_mem x hy))]

/-- A rewrite that leaves the filter's verdict unchanged leaves the number of
matching elements unchanged. -/
theorem length_filter_updateFirst {α : Type} (p q : α → Bool) (f : α → α)
    (l : List α) (hq : ∀ a, q (f a) = q a) :
    ((updateFirst p f l).filter q).length = (l.filter q).length := by
  induction l with
  | nil => rfl
  | cons x xs ih =>
    rw [updateFirst]
    by_cases hp : p x = true
    · rw [if_pos hp, List.filter_cons, List.filter_cons, hq x]
      cases hqx : q x <;> simp [hqx]
    · rw [if_neg hp, List.filter_cons, List.filter_cons]
      cases hqx : q x <;> simp [hqx, ih]

/-- C4: on an owned profile (first profile with that id, owner `uid`) and an
existing movie, assuming the true uuid invariant that progress-record ids are
distinct, the handler succeeds, and in the new state: if a record for the
`(profile, movie)` pair existed it is rewritten IN PLACE (same position, same
id, new elapsed seconds / completed flag / last-watched timestamp, all other
records untouched); if none existed exactly one new record is appended; every
pair that had at most one record still has at most one; and the movie id is
appended to the profile's watch-history exactly when it was not already
there. -/
theorem update_view_progress_upsert (db : DB) (uid movie_id profile_id : String)
    (secs : Int) (completed : Bool) (newId : String) (now : Nat) (prof : Profile)
    (h1 : db.profiles.find? (fun p => p.id = profile_id) = some prof)
    (h2 : prof.user_id = uid)
    (h3 : (db.movies.find? (fun m => m.id = movie_id)).isSome = true)
    (hnd : (db.view_progress.map (fun v => v.id)).Nodup) :
    ∃ db2,
      update_view_progress db uid movie_id profile_id secs completed newId now =
        .ok ("Progress updated successfully", db2) ∧
      (∀ progress, db.view_progress.find?
          (fun v => v.profile_id = profile_id && v.movie_id = movie_id) = some progress →
        ∃ l1 l2, db.view_progress = l1 ++ progress :: l2 ∧
          db2.view_progress = l1 ++
            { progress with
              progress_seconds := secs
              completed := completed
              last_watched := now } :: l2) ∧
      (db.view_progress.find?
          (fun v => v.profile_id = profile_id && v.movie_id = movie_id) = none →
        db2.view_progress = db.view_progress ++
          [{ id := newId, profile_id := profile_id, movie_id := movie_id,
             progress_seconds := secs, completed := completed,
             last_watched := now }]) ∧
      (∀ pid2 mid2 : String,
        (db.view_progress.filter
            (fun v => v.profile_id = pid2 && v.movie_id = mid2)).length ≤ 1 →
        (db2.view_progress.filter
            (fun v => v.profile_id = pid2 && v.movie_id = mid2)).length ≤ 1) ∧
      db2.profiles.find? (fun p => p.id = profile_id) =
        some { prof with watch_history :=
          if movie_id ∈ prof.watch_history then prof.watch_history
          else prof.watch_history ++ [movie_id] } := by
  obtain ⟨mv, hmv⟩ := Option.isSome_iff_exists.mp h3
  have hid : prof.id = profile_id := by simpa using List.find?_some h1
  have hconj : db.profiles.find? (fun p => p.id = profile_id && p.user_id = uid) = some prof :=
    find?_and_of_find? _ _ _ _ h1 (by simp [h2])
  by_cases hmem : movie_id ∈ prof.watch_history
  all_goals rcases hprog : db.view_progress.find? (fun v => v.profile_id = profile_id && v.movie_id = movie_id) with _ | progress
  -- record absent, movie already in history
  case pos.none =>
    have hcontT : prof.watch_history.contains movie_id = true := by simpa using hmem
    refine ⟨{ db with view_progress := db.view_progress ++ [{ id := newId, profile_id := profile_id, movie_id := movie_id, progress_seconds := secs, completed := completed, last_watched := now }] }, ?_, ?_, ?_, ?_, ?_⟩
    · simp [update_view_progress, hconj, hmv, hprog, hcontT, hmem]
    · intro progress hp
      rw [hprog] at hp
      cases hp
    · intro _
      rfl
    · intro pid2 mid2 hle
      by_cases hp2 : profile_id = pid2 ∧ movie_id = mid2
      · obtain ⟨hpa, hpb⟩ := hp2
        subst hpa
        subst hpb
        have hnil : db.view_progress.filter
            (fun v => v.profile_id = profile_id && v.movie_id = movie_id) = [] := by
          rw [List.filter_eq_nil_iff]
          rw [List.find?_eq_none] at hprog
          exact hprog
        show ((db.view_progress ++ _).filter _).length ≤ 1
        rw [List.filter_append, hnil]
        simp
      · show ((db.view_progress ++ _).filter _).length ≤ 1
        rw [List.filter_append]
        have hone : ([{ id := newId, profile_id := profile_id, movie_id := movie_id, progress_seconds := secs, completed := completed, last_watched := now }] : List ViewProgress).filter (fun v => v.profile_id = pid2 && v.movie_id = mid2) = [] := by
          rw [List.filter_eq_nil_iff]
          intro a ha
          rw [List.mem_singleton] at ha
          subst ha
          simp only [Bool.and_eq_true, decide_eq_true_eq, not_and]
          intro hpa hpb
          exact hp2 ⟨hpa, hpb⟩
        rw [hone]
        simpa using hle
    · rw [if_pos hmem]
      exact h1
  -- record absent, movie not yet in history
  case neg.none =>
    have hcontF : prof.watch_history.contains movie_id = false := by simpa using hmem
    refine ⟨{ db with view_progress := db.view_progress ++ [{ id := newId, profile_id := profile_id, movie_id := movie_id, progress_seconds := secs, completed := completed, last_watched := now }], profiles := updateFirst (fun p => p.id = profile_id) (fun p => { p with watch_history := p.watch_history ++ [movie_id] }) db.profiles }, ?_, ?_, ?_, ?_, ?_⟩
    · simp [update_view_progress, hconj, hmv, hprog, hcontF, hmem]
    · intro progress hp
      rw [hprog] at hp
      cases hp
    · intro _
      rfl
    · intro pid2 mid2 hle
      by_cases hp2 : profile_id = pid2 ∧ movie_id = mid2
      · obtain ⟨hpa, hpb⟩ := hp2
        subst hpa
        subst hpb
        have hnil : db.view_progress.filter
            (fun v => v.profile_id = profile_id && v.movie_id = movie_id) = [] := by
          rw [List.filter_eq_nil_iff]
          rw [List.find?_eq_none] at hprog
          exact hprog
        show ((db.view_progress ++ _).filter _).length ≤ 1
        rw [List.filter_append, hnil]
        simp
      · show ((db.view_progress ++ _).filter _).length ≤ 1
        rw [List.filter_append]
        have hone : ([{ id := newId, profile_id := profile_id, movie_id := movie_id, progress_seconds := secs, completed := completed, last_watched := now }] : List ViewProgress).filter (fun v => v.profile_id = pid2 && v.movie_id = mid2) = [] := by
          rw [List.filter_eq_nil_iff]
          intro a ha
          rw [List.mem_singleton] at ha
          subst ha
          simp only [Bool.and_eq_true, decide_eq_true_eq, not_and]
          intro hpa hpb
          exact hp2 ⟨hpa, hpb⟩
        rw [hone]
        simpa using hle
    · have hupd := find?_updateFirst_self (fun p => decide (p.id = profile_id))
        (fun p => { p with watch_history := p.watch_history ++ [movie_id] })
        db.profiles prof h1 (by simp [hid])
      rw [if_neg hmem]
      exact hupd
  -- record present, movie already in history
  case pos.some =>
    have hcontT : prof.watch_history.contains movie_id = true := by simpa using hmem
    obtain ⟨hpm, l1, l2, heq, hbefore⟩ := List.find?_eq_some.mp hprog
    have hids : ∀ x ∈ l1, (decide (x.id = progress.id)) = false := by
      intro x hx
      have hnd2 : ((l1 ++ progress :: l2).map (fun v => v.id)).Nodup := by
        rw [← heq]; exact hnd
      rw [List.map_append] at hnd2
      have hdisj := (List.nodup_append.mp hnd2).2.2
      simp only [decide_eq_false_iff_not]
      intro hexact
      exact hdisj (List.mem_map_of_mem _ hx) (by simp [hexact])
    refine ⟨{ db with view_progress := updateFirst (fun v => v.id = progress.id) (fun v => { v with progress_seconds := secs, completed := completed, last_watched := now }) db.view_progress }, ?_, ?_, ?_, ?_, ?_⟩
    · simp [update_view_progress, hconj, hmv, hprog, hcontT, hmem]
    · intro progress2 hp2
      rw [hprog] at hp2
      cases hp2
      refine ⟨l1, l2, heq, ?_⟩
      show updateFirst _ _ db.view_progress = _
      rw [heq]
      exact updateFirst_append _ _ l1 l2 progress hids (by simp)
    · intro hnone
      rw [hprog] at hnone
      cases hnone
    · intro pid2 mid2 hle
      show ((updateFirst _ _ db.view_progress).filter _).length ≤ 1
      rw [length_filter_updateFirst]
      · exact hle
      · intro a
        rfl
    · rw [if_pos hmem]
      exact h1
  -- record present, movie not yet in history
  case neg.some =>
    have hcontF : prof.watch_history.contains movie_id = false := by simpa using hmem
    obtain ⟨hpm, l1, l2, heq, hbefore⟩ := List.find?_eq_some.mp hprog
    have hids : ∀ x ∈ l1, (decide (x.id = progress.id)) = false := by
      intro x hx
      have hnd2 : ((l1 ++ progress :: l2).map (fun v => v.id)).Nodup := by
        rw [← heq]; exact hnd
      rw [List.map_append] at hnd2
      have hdisj := (List.nodup_append.mp hnd2).2.2
      simp only [decide_eq_false_iff_not]
      intro hexact
      exact hdisj (List.mem_map_of_mem _ hx) (by simp [hexact])
    refine ⟨{ db with view_progress := updateFirst (fun v => v.id = progress.id) (fun v => { v with progress_seconds := secs, completed := completed, last_watched := now }) db.view_progress, profiles := updateFirst (fun p => p.id = profile_id) (fun p => { p with watch_history := p.watch_history ++ [movie_id] }) db.profiles }, ?_, ?_, ?_, ?_, ?_⟩
    · simp [update_view_progress, hconj, hmv, hprog, hcontF, hmem]
    · intro progress2 hp2
      rw [hprog] at hp2
      cases hp2
      refine ⟨l1, l2, heq, ?_⟩
      show updateFirst _ _ db.view_progress = _
      rw [heq]
      exact updateFirst_append _ _ l1 l2 progress hids (by simp)
    · intro hnone
      rw [hprog] at hnone
      cases hnone
    · intro pid2 mid2 hle
      show ((updateFirst _ _ db.view_progress).filter _).length ≤ 1
      rw [length_filter_updateFirst]
      · exact hle
      · intro a
        rfl
    · have hupd := find?_updateFirst_self (fun p => decide (p.id = profile_id))
        (fun p => { p with watch_history := p.watch_history ++ [movie_id] })
        db.profiles prof h1 (by simp [hid])
      rw [if_neg hmem]
      exact hupd

/-- C4 at a concrete input: recording 450 seconds on `(p1, m1)` in `exDB`
(no prior record, empty watch-history) satisfies all the upsert and
watch-history properties. -/
theorem update_view_progress_upsert_witness :
    ∃ db2,
      update_view_progress exDB "uA" "m1" "p1" 450 false "vp1" 100 =
        .ok ("Progress updated successfully", db2) ∧
      (∀ progress, exDB.view_progress.find?
          (fun v => v.profile_id = "p1" && v.movie_id = "m1") = some progress →
        ∃ l1 l2, exDB.view_progress = l1 ++ progress :: l2 ∧
          db2.view_progress = l1 ++
            { progress with
              progress_seconds := 450
              completed := false
              last_watched := 100 } :: l2) ∧
      (exDB.view_progress.find?
          (fun v => v.profile_id = "p1" && v.movie_id = "m1") = none →
        db2.view_progress = exDB.view_progress ++
          [{ id := "vp1", profile_id := "p1", movie_id := "m1",
             progress_seconds := 450, completed := false,
             last_watched := 100 }]) ∧
      (∀ pid2 mid2 : String,
        (exDB.view_progress.filter
            (fun v => v.profile_id = pid2 && v.movie_id = mid2)).length ≤ 1 →
        (db2.view_progress.filter
            (fun v => v.profile_id = pid2 && v.movie_id = mid2)).length ≤ 1) ∧
      db2.profiles.find? (fun p => p.id = "p1") =
        some { profileA with watch_history :=
          if "m1" ∈ profileA.watch_history then profileA.watch_history
          else profileA.watch_history ++ ["m1"] } :=
  update_view_progress_upsert exDB "uA" "m1" "p1" 450 false "vp1" 100 profileA
    (by decide) (by decide) (by decide) (by decide)

/-! ## C5 — continue-watching listing -/

instance : IsTotal ViewProgress lastWatchedGE where
  total a b := le_total b.last_watched a.last_watched

instance : IsTrans ViewProgress lastWatchedGE :=
  ⟨fun _ _ _ hab hbc => le_trans hbc hab⟩

/-- C5: on an owned profile, the endpoint returns exactly the profile's
incomplete progress records with strictly more than 30 elapsed seconds,
sorted by last-watched descending, truncated to the 10 most recent, each
paired with its movie document, records whose movie no longer exists being
silently dropped.  Consequently every returned record has more than 30
seconds (so a 15-second record never appears), and when no truncation occurs
every qualifying record whose movie exists appears (so a 450-second record
does). -/
theorem get_continue_watching_spec (db : DB) (uid profile_id : String)
    (prof : Profile)
    (h1 : db.profiles.find? (fun p => p.id = profile_id && p.user_id = uid) = some prof) :
    ∃ l, get_continue_watching db uid profile_id = .ok l ∧
      l = (((db.view_progress.filter
              (fun v => v.profile_id = profile_id && v.completed = false && v.progress_seconds > 30)).insertionSort
            lastWatchedGE).take 10).filterMap
            (fun v => (db.movies.find? (fun m => m.id = v.movie_id)).map (fun m => (m, v))) ∧
      (∀ pr ∈ l, pr.2.profile_id = profile_id ∧ pr.2.completed = false ∧
        pr.2.progress_seconds > 30 ∧
        db.movies.find? (fun m => m.id = pr.2.movie_id) = some pr.1) ∧
      l.length ≤ 10 ∧
      l.Pairwise (fun a b => b.2.last_watched ≤ a.2.last_watched) ∧
      (∀ pr ∈ l, pr.2.progress_seconds ≠ 15) ∧
      ((db.view_progress.filter
          (fun v => v.profile_id = profile_id && v.completed = false && v.progress_seconds > 30)).length ≤ 10 →
        ∀ v ∈ db.view_progress, v.profile_id = profile_id → v.completed = false →
          v.progress_seconds > 30 →
          ∀ m, db.movies.find? (fun x => x.id = v.movie_id) = some m → (m, v) ∈ l) := by
  refine ⟨_, by simp [get_continue_watching, h1], rfl, ?_, ?_, ?_, ?_, ?_⟩
  · intro pr hpr
    obtain ⟨v, hv, hf⟩ := List.mem_filterMap.mp hpr
    obtain ⟨m, hm, hback⟩ := Option.map_eq_some'.mp hf
    have hvq : v ∈ (db.view_progress.filter
        (fun v => v.profile_id = profile_id && v.completed = false && v.progress_seconds > 30)) := by
      have hs := List.mem_of_mem_take hv
      exact ((List.perm_insertionSort lastWatchedGE _).mem_iff).mp hs
    have hpred := (List.mem_filter.mp hvq).2
    simp only [Bool.and_eq_true, decide_eq_true_eq] at hpred
    obtain ⟨⟨hvp, hvc⟩, hvs⟩ := hpred
    subst hback
    exact ⟨hvp, hvc, hvs, hm⟩
  · calc _ ≤ (((db.view_progress.filter
          (fun v => v.profile_id = profile_id && v.completed = false && v.progress_seconds > 30)).insertionSort
          lastWatchedGE).take 10).length := List.length_filterMap_le _ _
      _ ≤ 10 := List.length_take_le _ _
  · rw [List.pairwise_filterMap]
    have hsorted : ((db.view_progress.filter
        (fun v => v.profile_id = profile_id && v.completed = false && v.progress_seconds > 30)).insertionSort
        lastWatchedGE).Pairwise lastWatchedGE :=
      List.sorted_insertionSort lastWatchedGE _
    have htake := hsorted.sublist (List.take_sublist 10 _)
    refine htake.imp ?_
    intro a b hab pr1 hpr1 pr2 hpr2
    obtain ⟨m1, _, hb1⟩ := Option.map_eq_some'.mp hpr1
    obtain ⟨m2, _, hb2⟩ := Option.map_eq_some'.mp hpr2
    subst hb1
    subst hb2
    exact hab
  · intro pr hpr
    obtain ⟨v, hv, hf⟩ := List.mem_filterMap.mp hpr
    obtain ⟨m, _, hback⟩ := Option.map_eq_some'.mp hf
    have hvq : v ∈ (db.view_progress.filter
        (fun v => v.profile_id = profile_id && v.completed = false && v.progress_seconds > 30)) := by
      have hs := List.mem_of_mem_take hv
      exact ((List.perm_insertionSort lastWatchedGE _).mem_iff).mp hs
    have hpred := (List.mem_filter.mp hvq).2
    simp only [Bool.and_eq_true, decide_eq_true_eq] at hpred
    obtain ⟨-, hvs⟩ := hpred
    subst hback
    show v.progress_seconds ≠ 15
    omega
  · intro hlen v hv hvp hvc hvs m hm
    have hvfilter : v ∈ (db.view_progress.filter
        (fun v => v.profile_id = profile_id && v.completed = false && v.progress_seconds > 30)) :=
      List.mem_filter.mpr ⟨hv, by simp [hvp, hvc, hvs]⟩
    have hvsort : v ∈ ((db.view_progress.filter
        (fun v => v.profile_id = profile_id && v.completed = false && v.progress_seconds > 30)).insertionSort
        lastWatchedGE) :=
      ((List.perm_insertionSort lastWatchedGE _).mem_iff).mpr hvfilter
    have htake_all : (((db.view_progress.filter
        (fun v => v.profile_id = profile_id && v.completed = false && v.progress_seconds > 30)).insertionSort
        lastWatchedGE).take 10) = ((db.view_progress.filter
        (fun v => v.profile_id = profile_id && v.completed = false && v.progress_seconds > 30)).insertionSort
        lastWatchedGE) := by
      apply List.take_of_length_le
      rw [List.length_insertionSort]
      exact hlen
    rw [htake_all]
    exact List.mem_filterMap.mpr ⟨v, hvsort, by rw [hm]; rfl⟩

/-- A second catalog movie for the continue-watching scenario. -/
def movieSecond : Movie :=
  { id := "m2", slug := "second-movie", title := "Second Movie",
    description := "Another film.", category := "drama", poster_url := "",
    backdrop_url := "", video_url := "", release_year := 2012, rating := 55,
    duration_minutes := 100, tags := [], languages := [], i18n := [],
    created_at := 0, updated_at := 0 }

/-- 450 elapsed seconds on `(p1, m1)`, incomplete. -/
def vp450 : ViewProgress :=
  { id := "vp1", profile_id := "p1", movie_id := "m1",
    progress_seconds := 450, completed := false, last_watched := 100 }

/-- 15 elapsed seconds on `(p1, m2)`, incomplete. -/
def vp15 : ViewProgress :=
  { id := "vp2", profile_id := "p1", movie_id := "m2",
    progress_seconds := 15, completed := false, last_watched := 200 }

/-- The continue-watching scenario database. -/
def cwDB : DB :=
  { users := [userA, userB], profiles := [profileA],
    movies := [movieBuck, movieSecond], view_progress := [vp450, vp15] }

/-- C5 at a concrete input: with a 450-second and a 15-second record on
`userA`'s profile, the listing contains the 450-second record (paired with
its movie) and no record with 15 elapsed seconds. -/
theorem get_continue_watching_spec_witness :
    ∃ l, get_continue_watching cwDB "uA" "p1" = .ok l ∧
      (∀ pr ∈ l, pr.2.progress_seconds ≠ 15) ∧
      (movieBuck, vp450) ∈ l := by
  obtain ⟨l, heq, _, _, _, _, h15, hcomp⟩ :=
    get_continue_watching_spec cwDB "uA" "p1" profileA (by decide)
  refine ⟨l, heq, h15, ?_⟩
  exact hcomp (by decide) vp450 (by decide) (by decide) (by decide) (by decide)
    movieBuck (by decide)
